import Mathlib

/-!
# Verification of the metrics-instrumented cart store (`main.go`)

Shallow embedding of the shopping-cart service from `src/main.go`:
the per-user cart map, its mutation operations (`AddToCart`, `GetCart`,
`RemoveFromCart`), the gauge-aggregation callback (`observeCartMetrics`),
and the per-request metrics recording (`withMetrics` / `recordError`).

Modelling conventions:
* The Go map `carts map[string]*Cart` is modelled as an association list
  `List (String × Cart)`; Go guarantees at most one entry per key, which the
  association-list operations below preserve (`lookup` finds the first match,
  `setCart` replaces the first match or appends a fresh key at the end).
* Go `int` is 64-bit here (the image builds `GOARCH=amd64`) and its
  addition wraps in two's complement.  Quantities are carried as `Int`
  and every addition the source performs —
  `cart.Items[i].Quantity += item.Quantity` (main.go:239) and
  `totalItems += int64(item.Quantity)` (main.go:174) — is modelled with
  an explicit reduction `wrap64` to the representative in
  `[-2^63, 2^63)`, so overflow behaves as in the program.
* `Price` is a Go `float64` that the source only stores and copies, never
  computes with; it is carried as `Rat`, an arbitrary value type with
  decidable equality, which is all the claims use of it.
* Error returns (`fmt.Errorf("cart not found for user %s", ...)`,
  `fmt.Errorf("item %s not found in cart", ...)`) are modelled by the
  inductive `CartError`, keeping the offending identifier.
-/

/-- Two's-complement wrap of Go's 64-bit `int` addition: the unique
representative of `n` modulo `2 ^ 64` lying in `[-2 ^ 63, 2 ^ 63)`. -/
def wrap64 (n : Int) : Int :=
  (n + 2 ^ 63) % 2 ^ 64 - 2 ^ 63

/-- The values a Go 64-bit `int` can hold. -/
abbrev int64Range (n : Int) : Prop :=
  -(2 ^ 63) ≤ n ∧ n < 2 ^ 63

/-- `CartItem` from `main.go`: ID, Name, Price, Quantity.  `Quantity` is a
Go `int` (64-bit); all arithmetic performed on it by the source is
modelled with `wrap64`. -/
structure CartItem where
  ID : String
  Name : String
  Price : Rat
  Quantity : Int
deriving DecidableEq, Repr

/-- `Cart` from `main.go`: a user identifier plus a list of items.
(The Go per-cart `sync.RWMutex` carries no data and is modelled separately
by the lock-event traces below.) -/
structure Cart where
  UserID : String
  Items : List CartItem
deriving DecidableEq, Repr

/-- `CartService` from `main.go`: the map from user identifier to cart,
modelled as an association list with at most one entry per key. -/
structure CartService where
  carts : List (String × Cart)
deriving DecidableEq, Repr

/-- The two error kinds the store reports (§7 of the spec):
`cart not found for user %s` and `item %s not found in cart`. -/
inductive CartError where
  | notFound (userID : String)
  | itemNotFound (itemID : String)
deriving DecidableEq, Repr

/-- Go map read `cs.carts[userID]`: first (unique) entry with the key. -/
def lookup : List (String × Cart) → String → Option Cart
  | [], _ => none
  | (k, c) :: rest, u => if k = u then some c else lookup rest u

/-- Go map write `cs.carts[userID] = cart`: replace the entry with that key,
or add one if the key is absent. -/
def setCart : List (String × Cart) → String → Cart → List (String × Cart)
  | [], u, c => [(u, c)]
  | (k, c0) :: rest, u, c =>
    if k = u then (u, c) :: rest else (k, c0) :: setCart rest u c

/-- The item-level loop of `AddToCart` (main.go:236-246): scan the item list;
at the first entry whose `ID` matches, add the incoming quantity to that
entry with Go's wrapping `int` addition (leaving its other fields as
stored) and stop; if no entry matches, append the incoming item at the
end. -/
def addItemToItems : List CartItem → CartItem → List CartItem
  | [], item => [item]
  | x :: xs, item =>
    if x.ID = item.ID then
      { x with Quantity := wrap64 (x.Quantity + item.Quantity) } :: xs
    else
      x :: addItemToItems xs item

/-- `AddToCart` (main.go:220-247): create the user's cart if absent
(`&Cart{UserID: userID, Items: []CartItem{}}`), then run the item-level
merge loop on that cart's item list. Always succeeds. -/
def AddToCart (cs : CartService) (userID : String) (item : CartItem) :
    CartService :=
  let cart : Cart :=
    match lookup cs.carts userID with
    | some c => c
    | none => { UserID := userID, Items := [] }
  { carts := setCart cs.carts userID
      { cart with Items := addItemToItems cart.Items item } }

/-- `GetCart` (main.go:250-270): fail with `NotFound` when the user has no
cart; otherwise return a copy of the stored cart (the source builds
`cartCopy` with a fresh slice and `copy`; value-level the copy equals the
stored cart).  The store state is not changed. -/
def GetCart (cs : CartService) (userID : String) : Except CartError Cart :=
  match lookup cs.carts userID with
  | none => .error (.notFound userID)
  | some cart => .ok { UserID := cart.UserID, Items := cart.Items }

/-- The item-level loop of `RemoveFromCart` (main.go:285-292): delete the
first entry whose `ID` matches (`append(cart.Items[:i], cart.Items[i+1:]...)`
keeps every other item in order); `none` when no entry matches. -/
def removeItemFromItems : List CartItem → String → Option (List CartItem)
  | [], _ => none
  | x :: xs, itemID =>
    if x.ID = itemID then some xs
    else
      match removeItemFromItems xs itemID with
      | some ys => some (x :: ys)
      | none => none

/-- `RemoveFromCart` (main.go:273-293): `NotFound` when the user has no cart,
`ItemNotFound` when the cart has no entry with the item identifier; both
failure paths return before touching any state, so the store is returned
unchanged.  On success the matching entry is deleted from that cart. -/
def RemoveFromCart (cs : CartService) (userID itemID : String) :
    CartService × Option CartError :=
  match lookup cs.carts userID with
  | none => (cs, some (.notFound userID))
  | some cart =>
    match removeItemFromItems cart.Items itemID with
    | none => (cs, some (.itemNotFound itemID))
    | some items =>
      ({ carts := setCart cs.carts userID { cart with Items := items } },
        none)

/-- Inner loop of `observeCartMetrics` (main.go:172-177): continue
accumulating `totalItems` over one cart's items with Go's wrapping
`int64` addition. -/
def cartQuantityFrom (acc : Int) (c : Cart) : Int :=
  c.Items.foldl (fun a it => wrap64 (a + it.Quantity)) acc

/-- Outer loop of `observeCartMetrics` (main.go:170-177): the single
`totalItems` accumulator threaded through every cart in the map. -/
def totalQuantity (cs : CartService) : Int :=
  cs.carts.foldl (fun acc p => cartQuantityFrom acc p.2) 0

/-- `observeCartMetrics` (main.go:165-184): under a read lock, report
(total quantity over all carts, number of cart entries `len(cs.carts)`). -/
def observeCartMetrics (cs : CartService) : Int × Int :=
  (totalQuantity cs, (cs.carts.length : Int))

/-- The empty store `make(map[string]*Cart)` created by `NewCartService`. -/
def emptyService : CartService := { carts := [] }

/-! ## Operation sequences on the store

The three store operations as reachable-state steps.  `GetCart` never
writes (main.go:250-270 holds only read locks and builds a copy), so its
step leaves the state unchanged; a failed `RemoveFromCart` returns the
state it was given (both early-return paths). -/

/-- One client-visible store operation. -/
inductive Op where
  | add (userID : String) (item : CartItem)
  | get (userID : String)
  | remove (userID itemID : String)

/-- Effect of one operation on the store state. -/
def applyOp (s : CartService) : Op → CartService
  | .add u it => AddToCart s u it
  | .get _ => s
  | .remove u i => (RemoveFromCart s u i).1

/-- Effect of a sequence of operations, first to last. -/
def runOps (s : CartService) (ops : List Op) : CartService :=
  ops.foldl applyOp s

/-- The store invariant (§3 of the spec): at most one map entry per user
identifier, and within each cart at most one item per item identifier. -/
def WF (s : CartService) : Prop :=
  (s.carts.map Prod.fst).Nodup ∧
    ∀ p ∈ s.carts, ((p.2.Items.map CartItem.ID).Nodup)

/-- A sequence of `AddToCart` calls for one user, first to last. -/
def runAdds (s : CartService) (u : String) (adds : List CartItem) :
    CartService :=
  adds.foldl (fun st it => AddToCart st u it) s

/-- A sequence of `AddToCart` calls for possibly different users, starting
from the empty store. -/
def runAddsMulti (adds : List (String × CartItem)) : CartService :=
  adds.foldl (fun st p => AddToCart st p.1 p.2) emptyService

/-! ## Request instrumentation (`withMetrics`, main.go:321-353)

For each completed request `withMetrics` records, in order: one
`requestCounter` increment (`recordRequest`, labels method/endpoint/status),
one `requestLatency` observation (`recordLatency`, same labels), and — only
when `statusCode >= 400` — one `errorCounter` increment (`recordError`,
labels error_type/endpoint/status, with `error_type = "server_error"` when
`statusCode >= 500` and `"client_error"` otherwise). -/

/-- One metric recording made by `withMetrics`.  The latency event carries
the observed duration in seconds (a rational stand-in for Go's float64;
no claim computes with it). -/
inductive MetricEvent where
  | requestCount (method endpoint : String) (statusCode : Int)
  | latency (method endpoint : String) (statusCode : Int) (seconds : Rat)
  | errorCount (errorType endpoint : String) (statusCode : Int)
deriving DecidableEq, Repr

/-- The recordings `withMetrics` makes for one completed request with the
given method, path, status code and elapsed time (main.go:337-351). -/
def withMetricsEvents (method path : String) (statusCode : Int)
    (seconds : Rat) : List MetricEvent :=
  [MetricEvent.requestCount method path statusCode,
   MetricEvent.latency method path statusCode seconds] ++
    (if statusCode ≥ 400 then
      [MetricEvent.errorCount
        (if statusCode ≥ 500 then "server_error" else "client_error")
        path statusCode]
    else [])

/-- Recognise a request-counter event. -/
def MetricEvent.isRequestCount : MetricEvent → Bool
  | .requestCount _ _ _ => true
  | _ => false

/-- Recognise a latency event. -/
def MetricEvent.isLatency : MetricEvent → Bool
  | .latency _ _ _ _ => true
  | _ => false

/-- Recognise an error-counter event. -/
def MetricEvent.isErrorCount : MetricEvent → Bool
  | .errorCount _ _ _ => true
  | _ => false

/-! ## Lock acquisition traces (claim C9)

The order in which `AddToCart` and `RemoveFromCart` acquire and release
the store-level mutex and the per-cart mutex, read off the source.
`AddToCart` (main.go:221-234) takes `cs.mutex.Lock()` with a deferred
unlock, then `cart.mutex.Lock()` with a deferred unlock; Go runs deferred
calls last-in-first-out when the function returns, so the store-wide
exclusive lock is released only after the cart lock, at the very end.
`RemoveFromCart` (main.go:274-283) explicitly releases the store read lock
(`cs.mutex.RUnlock()`) before taking the cart lock. -/

/-- One lock transition performed by a store operation. -/
inductive LockEv where
  | storeLock
  | storeUnlock
  | storeRLock
  | storeRUnlock
  | cartLock (userID : String)
  | cartUnlock (userID : String)
deriving DecidableEq, Repr

/-- Lock trace of `AddToCart` for a user (deferred unlocks run LIFO at
return, after the item-level work). -/
def addToCartLockTrace (userID : String) : List LockEv :=
  [LockEv.storeLock, LockEv.cartLock userID,
   LockEv.cartUnlock userID, LockEv.storeUnlock]

/-- Lock trace of `RemoveFromCart` when the user's cart exists (the
explicit `cs.mutex.RUnlock()` precedes `cart.mutex.Lock()`). -/
def removeFromCartLockTrace (userID : String) : List LockEv :=
  [LockEv.storeRLock, LockEv.storeRUnlock,
   LockEv.cartLock userID, LockEv.cartUnlock userID]

/-- `beforeIn tr a b`: in trace `tr`, the first occurrence of `a` is
followed (strictly later) by an occurrence of `b`. -/
def beforeIn : List LockEv → LockEv → LockEv → Prop
  | [], _, _ => False
  | x :: rest, a, b => if x = a then b ∈ rest else beforeIn rest a b

/-! ## Slice-level model of `GetCart` (claim C3)

`GetCart` returns `cartCopy` whose `Items` is a freshly allocated slice
(`make([]CartItem, len(cart.Items))`) filled by `copy` (main.go:262-267).
To state that the returned list is an independent copy — mutating it does
not affect the live cart — slices are modelled as cells of a heap
(`List (List CartItem)` indexed by allocation order) and each cart stores
a reference to its cell.  `GetCartH` below is `GetCart` translated at this
level: it allocates a fresh cell holding a copy of the stored cell and
returns a cart value pointing at the fresh cell. -/

/-- A cart whose item slice is a heap reference. -/
structure HCart where
  UserID : String
  itemsRef : Nat
deriving DecidableEq, Repr

/-- Store state at the slice level: the heap of item slices and the map. -/
structure HState where
  heap : List (List CartItem)
  carts : List (String × HCart)
deriving DecidableEq, Repr

/-- Read the slice behind a reference. -/
def readRef (h : List (List CartItem)) (r : Nat) : List CartItem :=
  h.getD r []

/-- Overwrite the slice behind a reference (a caller mutating a slice it
holds). -/
def writeRef (h : List (List CartItem)) (r : Nat) (v : List CartItem) :
    List (List CartItem) :=
  h.set r v

/-- Map read at the slice level. -/
def lookupH : List (String × HCart) → String → Option HCart
  | [], _ => none
  | (k, c) :: rest, u => if k = u then some c else lookupH rest u

/-- Every cart's slice reference points into the heap. -/
def WFH (st : HState) : Prop :=
  ∀ p ∈ st.carts, p.2.itemsRef < st.heap.length

/-- `GetCart` at the slice level (main.go:250-270): fail with `NotFound`
when the user has no cart; otherwise allocate a fresh cell (`make` +
`copy`) holding the stored items and return a cart pointing at it.  The
store's map is untouched; the heap grows by the fresh cell. -/
def GetCartH (st : HState) (userID : String) :
    Except CartError (HCart × HState) :=
  match lookupH st.carts userID with
  | none => .error (.notFound userID)
  | some hc =>
    .ok ({ UserID := hc.UserID, itemsRef := st.heap.length },
      { heap := st.heap ++ [readRef st.heap hc.itemsRef],
        carts := st.carts })

/-! ## Helper lemmas: the association-list map -/

lemma lookup_setCart_self (l : List (String × Cart)) (u : String) (c : Cart) :
    lookup (setCart l u c) u = some c := by
  induction l with
  | nil => simp [setCart, lookup]
  | cons p rest ih =>
    obtain ⟨k, c0⟩ := p
    by_cases hk : k = u
    · subst hk; simp [setCart, lookup]
    · simp [setCart, lookup, hk, ih]

lemma lookup_setCart_ne (l : List (String × Cart)) (u v : String) (c : Cart)
    (h : v ≠ u) : lookup (setCart l u c) v = lookup l v := by
  have huv : ¬ u = v := fun hh => h hh.symm
  induction l with
  | nil => simp [setCart, lookup, huv]
  | cons p rest ih =>
    obtain ⟨k, c0⟩ := p
    by_cases hk : k = u
    · subst hk
      simp [setCart, lookup, huv]
    · simp only [setCart, hk, if_false, lookup]
      by_cases hv : k = v <;> simp [hv, ih]

lemma map_fst_setCart (l : List (String × Cart)) (u : String) (c : Cart) :
    (setCart l u c).map Prod.fst =
      if (lookup l u).isSome then l.map Prod.fst
      else l.map Prod.fst ++ [u] := by
  induction l with
  | nil => simp [setCart, lookup]
  | cons p rest ih =>
    obtain ⟨k, c0⟩ := p
    by_cases hk : k = u
    · subst hk; simp [setCart, lookup]
    · simp only [setCart, lookup, hk, if_false, List.map_cons, ih]
      by_cases h2 : (lookup rest u).isSome <;> simp [h2]

lemma lookup_isSome_iff_mem (l : List (String × Cart)) (u : String) :
    (lookup l u).isSome ↔ u ∈ l.map Prod.fst := by
  induction l with
  | nil => simp [lookup]
  | cons p rest ih =>
    obtain ⟨k, c0⟩ := p
    by_cases hk : k = u
    · subst hk; simp [lookup]
    · have h2 : ¬ u = k := fun hh => hk hh.symm
      simp [lookup, hk, h2, ih]

lemma mem_setCart (l : List (String × Cart)) (u : String) (c : Cart)
    (p : String × Cart) : p ∈ setCart l u c → p = (u, c) ∨ p ∈ l := by
  induction l with
  | nil => intro hp; simpa [setCart] using hp
  | cons q rest ih =>
    obtain ⟨k, c0⟩ := q
    intro hp
    by_cases hk : k = u
    · subst hk
      have hp2 : p = (k, c) ∨ p ∈ rest := by simpa [setCart] using hp
      exact hp2.imp id (List.mem_cons_of_mem _)
    · simp only [setCart, hk, if_false, List.mem_cons] at hp
      cases hp with
      | inl h1 => exact Or.inr (by simp [h1])
      | inr h1 =>
        cases ih h1 with
        | inl h2 => exact Or.inl h2
        | inr h2 => exact Or.inr (List.mem_cons_of_mem _ h2)

lemma lookup_mem (l : List (String × Cart)) (u : String) (c : Cart)
    (h : lookup l u = some c) : (u, c) ∈ l := by
  induction l with
  | nil => simp [lookup] at h
  | cons p rest ih =>
    obtain ⟨k, c0⟩ := p
    by_cases hk : k = u
    · subst hk
      have h2 : c0 = c := by simpa [lookup] using h
      subst h2
      exact List.mem_cons_self _ _
    · simp only [lookup, hk, if_false] at h
      exact List.mem_cons_of_mem _ (ih h)

lemma length_setCart (l : List (String × Cart)) (u : String) (c : Cart) :
    (setCart l u c).length =
      if (lookup l u).isSome then l.length else l.length + 1 := by
  have h := congrArg List.length (map_fst_setCart l u c)
  simp only [List.length_map] at h
  by_cases h2 : (lookup l u).isSome <;> simpa [h2] using h

/-! ## Helper lemmas: the item-merge loop of `AddToCart` -/

lemma addItemToItems_of_no_match (l : List CartItem) (it : CartItem)
    (h : ∀ x ∈ l, x.ID ≠ it.ID) : addItemToItems l it = l ++ [it] := by
  induction l with
  | nil => simp [addItemToItems]
  | cons x xs ih =>
    have hx : x.ID ≠ it.ID := h x (List.mem_cons_self _ _)
    simp only [addItemToItems, hx, if_false, List.cons_append,
      List.cons.injEq, true_and]
    exact ih fun y hy => h y (List.mem_cons_of_mem _ hy)

lemma addItemToItems_of_first_match (pre post : List CartItem)
    (e it : CartItem) (he : e.ID = it.ID)
    (hpre : ∀ x ∈ pre, x.ID ≠ it.ID) :
    addItemToItems (pre ++ e :: post) it =
      pre ++ { e with Quantity := wrap64 (e.Quantity + it.Quantity) }
        :: post := by
  induction pre with
  | nil => simp [addItemToItems, he]
  | cons x xs ih =>
    have hx : x.ID ≠ it.ID := hpre x (List.mem_cons_self _ _)
    simp only [List.cons_append, addItemToItems, hx, if_false,
      List.cons.injEq, true_and]
    exact ih fun y hy => hpre y (List.mem_cons_of_mem _ hy)

lemma exists_first_match (l : List CartItem) (iid : String)
    (h : ∃ x ∈ l, x.ID = iid) :
    ∃ pre e post, l = pre ++ e :: post ∧ e.ID = iid ∧
      ∀ x ∈ pre, x.ID ≠ iid := by
  induction l with
  | nil => simp at h
  | cons x xs ih =>
    by_cases hx : x.ID = iid
    · exact ⟨[], x, xs, by simp, hx, by simp⟩
    · have h2 : ∃ y ∈ xs, y.ID = iid := by
        rcases h with ⟨y, hy, hyid⟩
        rcases List.mem_cons.mp hy with h3 | h3
        · exact absurd (h3 ▸ hyid) hx
        · exact ⟨y, h3, hyid⟩
      rcases ih h2 with ⟨pre, e, post, heq, heid, hpre⟩
      refine ⟨x :: pre, e, post, by simp [heq], heid, ?_⟩
      intro y hy
      rcases List.mem_cons.mp hy with h3 | h3
      · exact h3 ▸ hx
      · exact hpre y h3

/-! ## Helper lemmas: the item-removal loop of `RemoveFromCart` -/

lemma removeItemFromItems_eq_none_iff (l : List CartItem) (iid : String) :
    removeItemFromItems l iid = none ↔ ∀ x ∈ l, x.ID ≠ iid := by
  induction l with
  | nil => simp [removeItemFromItems]
  | cons x xs ih =>
    by_cases hx : x.ID = iid
    · simp [removeItemFromItems, hx]
    · simp only [removeItemFromItems, hx, if_false]
      cases hrec : removeItemFromItems xs iid with
      | some ys =>
        simp only [hrec] at ih
        constructor
        · intro h; exact absurd h (by simp)
        · intro h
          have : ∀ x ∈ xs, x.ID ≠ iid :=
            fun y hy => h y (List.mem_cons_of_mem _ hy)
          exact absurd (ih.mpr this) (by simp)
      | none =>
        simp only [hrec] at ih ⊢
        constructor
        · intro _ y hy
          rcases List.mem_cons.mp hy with h3 | h3
          · exact h3 ▸ hx
          · exact ih.mp trivial y h3
        · intro _; trivial

lemma removeItemFromItems_of_first_match (pre post : List CartItem)
    (e : CartItem) (iid : String) (he : e.ID = iid)
    (hpre : ∀ x ∈ pre, x.ID ≠ iid) :
    removeItemFromItems (pre ++ e :: post) iid = some (pre ++ post) := by
  induction pre with
  | nil => simp [removeItemFromItems, he]
  | cons x xs ih =>
    have hx : x.ID ≠ iid := hpre x (List.mem_cons_self _ _)
    have ih2 := ih fun y hy => hpre y (List.mem_cons_of_mem _ hy)
    simp only [List.cons_append, removeItemFromItems, hx, if_false,
      List.append_eq, ih2]

lemma removeItemFromItems_sublist (l : List CartItem) (iid : String)
    (l' : List CartItem) (h : removeItemFromItems l iid = some l') :
    l'.Sublist l := by
  induction l generalizing l' with
  | nil => simp [removeItemFromItems] at h
  | cons x xs ih =>
    by_cases hx : x.ID = iid
    · have h2 : xs = l' := by simpa [removeItemFromItems, hx] using h
      exact h2 ▸ List.sublist_cons_self x xs
    · simp only [removeItemFromItems, hx, if_false] at h
      cases hrec : removeItemFromItems xs iid with
      | none => simp [hrec] at h
      | some ys =>
        simp only [hrec, Option.some.injEq] at h
        subst h
        exact List.Sublist.cons₂ x (ih ys hrec)

/-! ## Helper lemmas: the two's-complement wrap -/

lemma wrap64_zero : wrap64 0 = 0 := by
  simp only [wrap64]
  decide

lemma wrap64_wrap_left (a b : Int) :
    wrap64 (wrap64 a + b) = wrap64 (a + b) := by
  simp only [wrap64]
  omega

lemma wrap64_wrap_right (a b : Int) :
    wrap64 (a + wrap64 b) = wrap64 (a + b) := by
  simp only [wrap64]
  omega

lemma wrap64_wrap_sub (a b : Int) :
    wrap64 (wrap64 a - b) = wrap64 (a - b) := by
  simp only [wrap64]
  omega

lemma wrap64_of_int64Range (n : Int) (h : int64Range n) : wrap64 n = n := by
  obtain ⟨h1, h2⟩ := h
  simp only [wrap64]
  omega

lemma wrap64_idem (a : Int) : wrap64 (wrap64 a) = wrap64 a := by
  simp only [wrap64]
  omega

lemma foldl_wrapAdd_int (l : List Int) (a : Int) :
    l.foldl (fun acc q => wrap64 (acc + q)) (wrap64 a)
      = wrap64 (a + l.sum) := by
  induction l generalizing a with
  | nil => simp
  | cons q rest ih =>
    simp only [List.foldl_cons, wrap64_wrap_left, List.sum_cons]
    rw [ih]
    exact congrArg wrap64 (by ring)

/-! ## Helper lemmas: quantity sums under wrapping -/

lemma cartQuantityFrom_wrap (c : Cart) (a : Int) :
    cartQuantityFrom (wrap64 a) c
      = wrap64 (a + (c.Items.map CartItem.Quantity).sum) := by
  rw [cartQuantityFrom]
  induction c.Items generalizing a with
  | nil => simp
  | cons x xs ih =>
    simp only [List.foldl_cons, wrap64_wrap_left, List.map_cons,
      List.sum_cons]
    rw [ih]
    exact congrArg wrap64 (by ring)

lemma totalQuantity_from_wrap (carts : List (String × Cart)) (a : Int) :
    carts.foldl (fun acc p => cartQuantityFrom acc p.2) (wrap64 a)
      = wrap64 (a + (carts.map
          (fun p => (p.2.Items.map CartItem.Quantity).sum)).sum) := by
  induction carts generalizing a with
  | nil => simp
  | cons p rest ih =>
    simp only [List.foldl_cons, cartQuantityFrom_wrap, List.map_cons,
      List.sum_cons]
    rw [ih]
    exact congrArg wrap64 (by ring)

lemma totalQuantity_eq (cs : CartService) :
    totalQuantity cs = wrap64 ((cs.carts.map
      (fun p => (p.2.Items.map CartItem.Quantity).sum)).sum) := by
  rw [totalQuantity, show (0 : Int) = wrap64 0 from wrap64_zero.symm,
    totalQuantity_from_wrap]
  exact congrArg wrap64 (by ring)

lemma wrapSum_addItemToItems (l : List CartItem) (it : CartItem) :
    wrap64 (((addItemToItems l it).map CartItem.Quantity).sum)
      = wrap64 ((l.map CartItem.Quantity).sum + it.Quantity) := by
  induction l with
  | nil =>
    simp only [addItemToItems, List.map_cons, List.map_nil,
      List.sum_cons, List.sum_nil]
    exact congrArg wrap64 (by ring)
  | cons x xs ih =>
    by_cases hx : x.ID = it.ID
    · simp only [addItemToItems]
      rw [if_pos hx]
      simp only [List.map_cons, List.sum_cons, wrap64_wrap_left]
      exact congrArg wrap64 (by ring)
    · simp only [addItemToItems, hx, if_false, List.map_cons,
        List.sum_cons]
      calc wrap64 (x.Quantity
            + ((addItemToItems xs it).map CartItem.Quantity).sum)
          = wrap64 (x.Quantity
              + wrap64 (((addItemToItems xs it).map
                  CartItem.Quantity).sum)) := (wrap64_wrap_right _ _).symm
        _ = wrap64 (x.Quantity
              + wrap64 ((xs.map CartItem.Quantity).sum + it.Quantity)) := by
            rw [ih]
        _ = wrap64 (x.Quantity
              + ((xs.map CartItem.Quantity).sum + it.Quantity)) :=
            wrap64_wrap_right _ _
        _ = wrap64 (x.Quantity + (xs.map CartItem.Quantity).sum
              + it.Quantity) := congrArg wrap64 (by ring)

lemma sum_map_setCart (f : Cart → Int) (l : List (String × Cart))
    (u : String) (c c0 : Cart) (h : lookup l u = some c0) :
    ((setCart l u c).map (fun p => f p.2)).sum =
      (l.map (fun p => f p.2)).sum - f c0 + f c := by
  induction l with
  | nil => simp [lookup] at h
  | cons p rest ih =>
    obtain ⟨k, c1⟩ := p
    by_cases hk : k = u
    · subst hk
      have h2 : c1 = c0 := by simpa [lookup] using h
      subst h2
      simp only [setCart, ite_true, List.map_cons, List.sum_cons]
      ring
    · simp only [lookup, hk, if_false] at h
      simp only [setCart, hk, if_false, List.map_cons, List.sum_cons,
        ih h]
      ring

lemma sum_map_setCart_absent (f : Cart → Int) (l : List (String × Cart))
    (u : String) (c : Cart) (h : lookup l u = none) :
    ((setCart l u c).map (fun p => f p.2)).sum =
      (l.map (fun p => f p.2)).sum + f c := by
  induction l with
  | nil => simp [setCart]
  | cons p rest ih =>
    obtain ⟨k, c1⟩ := p
    by_cases hk : k = u
    · simp [lookup, hk] at h
    · simp only [lookup, hk, if_false] at h
      simp only [setCart, hk, if_false, List.map_cons, List.sum_cons,
        ih h]
      ring

/-! ## Helper lemmas: `AddToCart` at the store level -/

lemma AddToCart_carts (s : CartService) (u : String) (it : CartItem) :
    (AddToCart s u it).carts =
      setCart s.carts u
        (match lookup s.carts u with
          | some c => { c with Items := addItemToItems c.Items it }
          | none => { UserID := u, Items := addItemToItems [] it }) := by
  cases h : lookup s.carts u <;> simp [AddToCart, h]

lemma AddToCart_carts_absent (s : CartService) (u : String) (it : CartItem)
    (h : lookup s.carts u = none) :
    (AddToCart s u it).carts =
      setCart s.carts u { UserID := u, Items := [it] } := by
  simp [AddToCart, h, addItemToItems]

lemma AddToCart_carts_present (s : CartService) (u : String) (it : CartItem)
    (c : Cart) (h : lookup s.carts u = some c) :
    (AddToCart s u it).carts =
      setCart s.carts u { c with Items := addItemToItems c.Items it } := by
  simp [AddToCart, h]

lemma lookup_AddToCart_absent (s : CartService) (u : String) (it : CartItem)
    (h : lookup s.carts u = none) :
    lookup (AddToCart s u it).carts u = some { UserID := u, Items := [it] } := by
  rw [AddToCart_carts, h]
  simpa [addItemToItems] using lookup_setCart_self s.carts u _

lemma lookup_AddToCart_present (s : CartService) (u : String) (it : CartItem)
    (c : Cart) (h : lookup s.carts u = some c) :
    lookup (AddToCart s u it).carts u =
      some { c with Items := addItemToItems c.Items it } := by
  rw [AddToCart_carts, h]
  exact lookup_setCart_self s.carts u _

lemma lookup_AddToCart_ne (s : CartService) (u v : String) (it : CartItem)
    (h : v ≠ u) : lookup (AddToCart s u it).carts v = lookup s.carts v := by
  rw [AddToCart_carts]
  exact lookup_setCart_ne s.carts u v _ h

lemma map_fst_AddToCart (s : CartService) (u : String) (it : CartItem) :
    (AddToCart s u it).carts.map Prod.fst =
      if (lookup s.carts u).isSome then s.carts.map Prod.fst
      else s.carts.map Prod.fst ++ [u] := by
  rw [AddToCart_carts]
  exact map_fst_setCart s.carts u _

lemma wrap64_add_cancel (M A B q : Int) (h : wrap64 B = wrap64 (A + q)) :
    wrap64 (M - A + B) = wrap64 (M + q) := by
  calc wrap64 (M - A + B)
      = wrap64 ((M - A) + wrap64 B) := (wrap64_wrap_right _ _).symm
    _ = wrap64 ((M - A) + wrap64 (A + q)) := by rw [h]
    _ = wrap64 ((M - A) + (A + q)) := wrap64_wrap_right _ _
    _ = wrap64 (M + q) := congrArg wrap64 (by ring)

lemma totalQuantity_AddToCart (s : CartService) (u : String)
    (it : CartItem) :
    totalQuantity (AddToCart s u it) =
      wrap64 (totalQuantity s + it.Quantity) := by
  cases h : lookup s.carts u with
  | none =>
    have hM : ((AddToCart s u it).carts.map
        (fun p => (p.2.Items.map CartItem.Quantity).sum)).sum
        = (s.carts.map
            (fun p => (p.2.Items.map CartItem.Quantity).sum)).sum
          + (([it] : List CartItem).map CartItem.Quantity).sum := by
      rw [AddToCart_carts_absent s u it h]
      exact sum_map_setCart_absent
        (fun c' => (c'.Items.map CartItem.Quantity).sum) s.carts u _ h
    rw [totalQuantity_eq, totalQuantity_eq, wrap64_wrap_left, hM]
    exact congrArg wrap64 (by simp)
  | some c =>
    have hM : ((AddToCart s u it).carts.map
        (fun p => (p.2.Items.map CartItem.Quantity).sum)).sum
        = (s.carts.map
            (fun p => (p.2.Items.map CartItem.Quantity).sum)).sum
          - (c.Items.map CartItem.Quantity).sum
          + ((addItemToItems c.Items it).map CartItem.Quantity).sum := by
      rw [AddToCart_carts_present s u it c h]
      exact sum_map_setCart
        (fun c' => (c'.Items.map CartItem.Quantity).sum) s.carts u _ c h
    rw [totalQuantity_eq, totalQuantity_eq, wrap64_wrap_left, hM]
    exact wrap64_add_cancel _ _ _ _ (wrapSum_addItemToItems c.Items it)

/-! ## Helper lemmas: item identifiers and the uniqueness invariant -/

lemma ids_addItemToItems_no_match (l : List CartItem) (it : CartItem)
    (h : ∀ x ∈ l, x.ID ≠ it.ID) :
    (addItemToItems l it).map CartItem.ID = l.map CartItem.ID ++ [it.ID] := by
  rw [addItemToItems_of_no_match l it h]
  simp

lemma ids_addItemToItems_match (l : List CartItem) (it : CartItem)
    (h : ∃ x ∈ l, x.ID = it.ID) :
    (addItemToItems l it).map CartItem.ID = l.map CartItem.ID := by
  obtain ⟨pre, e, post, heq, heid, hpre⟩ := exists_first_match l it.ID h
  subst heq
  rw [addItemToItems_of_first_match pre post e it heid hpre]
  simp

lemma nodup_addItemToItems (l : List CartItem) (it : CartItem)
    (h : (l.map CartItem.ID).Nodup) :
    ((addItemToItems l it).map CartItem.ID).Nodup := by
  by_cases hm : ∃ x ∈ l, x.ID = it.ID
  · rw [ids_addItemToItems_match l it hm]; exact h
  · push_neg at hm
    rw [ids_addItemToItems_no_match l it hm]
    rw [List.nodup_append]
    refine ⟨h, List.nodup_singleton _, ?_⟩
    intro a ha hb
    simp only [List.mem_singleton] at hb
    subst hb
    obtain ⟨x, hx, hxid⟩ := List.mem_map.mp ha
    exact hm x hx hxid

lemma WF_emptyService : WF emptyService := by
  constructor <;> simp [emptyService]

lemma WF_AddToCart (s : CartService) (u : String) (it : CartItem)
    (h : WF s) : WF (AddToCart s u it) := by
  obtain ⟨hkeys, hitems⟩ := h
  constructor
  · rw [map_fst_AddToCart]
    cases hlook : lookup s.carts u with
    | some c =>
      rw [if_pos (by simp)]
      exact hkeys
    | none =>
      have hnotmem : u ∉ s.carts.map Prod.fst := by
        intro hmem
        have h2 := (lookup_isSome_iff_mem s.carts u).mpr hmem
        rw [hlook] at h2
        simp at h2
      rw [if_neg (by simp)]
      rw [List.nodup_append]
      refine ⟨hkeys, List.nodup_singleton _, ?_⟩
      intro a ha hb
      simp only [List.mem_singleton] at hb
      subst hb
      exact hnotmem ha
  · intro p hp
    rw [AddToCart_carts] at hp
    rcases mem_setCart _ _ _ _ hp with h2 | h2
    · subst h2
      cases hl : lookup s.carts u with
      | none => simp [hl, addItemToItems]
      | some c =>
        simp only [hl]
        exact nodup_addItemToItems c.Items it
          (hitems (u, c) (lookup_mem s.carts u c hl))
    · exact hitems p h2

lemma RemoveFromCart_cases (s : CartService) (u iid : String) :
    (RemoveFromCart s u iid).1 = s ∨
      ∃ c items, lookup s.carts u = some c ∧
        removeItemFromItems c.Items iid = some items ∧
        (RemoveFromCart s u iid).1 =
          { carts := setCart s.carts u { c with Items := items } } := by
  cases h : lookup s.carts u with
  | none => left; simp [RemoveFromCart, h]
  | some c =>
    cases h2 : removeItemFromItems c.Items iid with
    | none => left; simp [RemoveFromCart, h, h2]
    | some items =>
      right
      exact ⟨c, items, rfl, h2, by simp [RemoveFromCart, h, h2]⟩

lemma WF_RemoveFromCart (s : CartService) (u iid : String)
    (h : WF s) : WF (RemoveFromCart s u iid).1 := by
  rcases RemoveFromCart_cases s u iid with heq | ⟨c, items, hl, hr, heq⟩
  · rw [heq]; exact h
  · obtain ⟨hkeys, hitems⟩ := h
    rw [heq]
    constructor
    · rw [map_fst_setCart]
      simp [hl, hkeys]
    · intro p hp
      rcases mem_setCart _ _ _ _ hp with h2 | h2
      · subst h2
        have hsub : items.Sublist c.Items :=
          removeItemFromItems_sublist c.Items iid items hr
        exact (hitems (u, c) (lookup_mem s.carts u c hl)).sublist
          (hsub.map CartItem.ID)
      · exact hitems p h2

lemma WF_applyOp (s : CartService) (op : Op) (h : WF s) :
    WF (applyOp s op) := by
  cases op with
  | add u it => exact WF_AddToCart s u it h
  | get _ => exact h
  | remove u i => exact WF_RemoveFromCart s u i h

lemma WF_runOps (s : CartService) (ops : List Op) (h : WF s) :
    WF (runOps s ops) := by
  induction ops generalizing s with
  | nil => exact h
  | cons op rest ih => exact ih (applyOp s op) (WF_applyOp s op h)

/-! ## Helper lemmas: filtering a cart by one item identifier -/

lemma filter_eq_nil_iff_ids (l : List CartItem) (iid : String) :
    l.filter (fun x => x.ID == iid) = [] ↔ ∀ x ∈ l, x.ID ≠ iid := by
  induction l with
  | nil => simp
  | cons x xs ih =>
    by_cases hx : x.ID = iid
    · have hxb : (x.ID == iid) = true := beq_iff_eq.mpr hx
      simp [List.filter_cons, hxb, hx]
    · have hxb : (x.ID == iid) = false := beq_eq_false_iff_ne.mpr hx
      simp only [List.filter_cons, hxb, Bool.false_eq_true, if_false, ih]
      constructor
      · intro h y hy
        rcases List.mem_cons.mp hy with h2 | h2
        · exact h2 ▸ hx
        · exact h y h2
      · intro h y hy
        exact h y (List.mem_cons_of_mem _ hy)

lemma filter_eq_singleton_decomp (l : List CartItem) (iid : String)
    (e : CartItem) (h : l.filter (fun x => x.ID == iid) = [e]) :
    ∃ pre post, l = pre ++ e :: post ∧ (∀ x ∈ pre, x.ID ≠ iid) ∧
      (∀ x ∈ post, x.ID ≠ iid) ∧ e.ID = iid := by
  induction l with
  | nil => simp at h
  | cons x xs ih =>
    by_cases hx : x.ID = iid
    · have hxb : (x.ID == iid) = true := beq_iff_eq.mpr hx
      simp only [List.filter_cons, hxb, if_true, List.cons.injEq] at h
      obtain ⟨rfl, hnil⟩ := h
      exact ⟨[], xs, by simp, by simp,
        (filter_eq_nil_iff_ids xs iid).mp hnil, hx⟩
    · have hxb : (x.ID == iid) = false := beq_eq_false_iff_ne.mpr hx
      simp only [List.filter_cons, hxb, Bool.false_eq_true, if_false] at h
      obtain ⟨pre, post, heq, hpre, hpost, heid⟩ := ih h
      refine ⟨x :: pre, post, by simp [heq], ?_, hpost, heid⟩
      intro y hy
      rcases List.mem_cons.mp hy with h2 | h2
      · exact h2 ▸ hx
      · exact hpre y h2

lemma filter_addItemToItems_base (l : List CartItem) (iid : String)
    (it : CartItem) (hit : it.ID = iid) (h : ∀ x ∈ l, x.ID ≠ iid) :
    (addItemToItems l it).filter (fun x => x.ID == iid) = [it] := by
  rw [addItemToItems_of_no_match l it
    (fun x hx hh => h x hx (by rw [hh, hit]))]
  have hl : l.filter (fun x => x.ID == iid) = [] :=
    (filter_eq_nil_iff_ids l iid).mpr h
  have hib : (it.ID == iid) = true := beq_iff_eq.mpr hit
  simp [List.filter_append, hl, List.filter_cons, hib]

lemma filter_addItemToItems_step (l : List CartItem) (iid : String)
    (it e : CartItem) (hit : it.ID = iid)
    (h : l.filter (fun x => x.ID == iid) = [e]) :
    (addItemToItems l it).filter (fun x => x.ID == iid)
      = [{ e with Quantity := wrap64 (e.Quantity + it.Quantity) }] := by
  obtain ⟨pre, post, heq, hpre, hpost, heid⟩ :=
    filter_eq_singleton_decomp l iid e h
  subst heq
  rw [addItemToItems_of_first_match pre post e it (by rw [heid, hit])
    (fun x hx hh => hpre x hx (by rw [hh, hit]))]
  have hpe : pre.filter (fun x => x.ID == iid) = [] :=
    (filter_eq_nil_iff_ids pre iid).mpr hpre
  have hpo : post.filter (fun x => x.ID == iid) = [] :=
    (filter_eq_nil_iff_ids post iid).mpr hpost
  have heb : (e.ID == iid) = true := beq_iff_eq.mpr heid
  simp [List.filter_append, hpe, hpo, List.filter_cons, heb]

lemma runAdds_cons (s : CartService) (u : String) (it : CartItem)
    (rest : List CartItem) :
    runAdds s u (it :: rest) = runAdds (AddToCart s u it) u rest := by
  simp [runAdds]

lemma runAdds_same_id (u iid : String) (adds : List CartItem)
    (hall : ∀ it ∈ adds, it.ID = iid) :
    ∀ (s : CartService) (c : Cart) (e : CartItem),
      lookup s.carts u = some c →
      c.Items.filter (fun x => x.ID == iid) = [e] →
      ∃ c', lookup (runAdds s u adds).carts u = some c' ∧
        c'.Items.filter (fun x => x.ID == iid)
          = [{ e with
                Quantity := (adds.map CartItem.Quantity).foldl
                  (fun a q => wrap64 (a + q)) e.Quantity }] := by
  induction adds with
  | nil =>
    intro s c e hc hf
    refine ⟨c, hc, ?_⟩
    simp only [runAdds, List.foldl_nil, List.map_nil]
    exact hf
  | cons it rest ih =>
    intro s c e hc hf
    have hit : it.ID = iid := hall it (List.mem_cons_self _ _)
    have hrest : ∀ y ∈ rest, y.ID = iid :=
      fun y hy => hall y (List.mem_cons_of_mem _ hy)
    have hc2 := lookup_AddToCart_present s u it c hc
    have hf2 := filter_addItemToItems_step c.Items iid it e hit hf
    obtain ⟨c', hc', hfil⟩ := ih hrest (AddToCart s u it) _ _ hc2 hf2
    rw [runAdds_cons]
    refine ⟨c', hc', ?_⟩
    rw [hfil]
    simp only [List.map_cons, List.foldl_cons]

/-! ## Helper lemmas: aggregation over sequences of adds -/

lemma toFinset_keys_AddToCart (s : CartService) (u : String)
    (it : CartItem) :
    ((AddToCart s u it).carts.map Prod.fst).toFinset =
      insert u (s.carts.map Prod.fst).toFinset := by
  rw [map_fst_AddToCart]
  cases hlook : lookup s.carts u with
  | some c =>
    rw [if_pos (by simp)]
    have hmem : u ∈ (s.carts.map Prod.fst).toFinset := by
      rw [List.mem_toFinset]
      exact (lookup_isSome_iff_mem s.carts u).mp (by simp [hlook])
    exact (Finset.insert_eq_self.mpr hmem).symm
  | none =>
    rw [if_neg (by simp)]
    ext a
    simp [or_comm]

lemma toFinset_keys_foldAdds (adds : List (String × CartItem)) :
    ∀ s : CartService,
      (((adds.foldl (fun st p => AddToCart st p.1 p.2) s).carts.map
          Prod.fst).toFinset) =
        (s.carts.map Prod.fst).toFinset ∪ (adds.map Prod.fst).toFinset := by
  induction adds with
  | nil => intro s; simp
  | cons p rest ih =>
    intro s
    obtain ⟨v, itm⟩ := p
    rw [List.foldl_cons, ih, toFinset_keys_AddToCart]
    ext a
    simp only [Finset.mem_union, Finset.mem_insert, List.map_cons,
      List.toFinset_cons]
    tauto

lemma totalQuantity_foldAdds (adds : List (String × CartItem)) :
    ∀ s : CartService,
      totalQuantity (adds.foldl (fun st p => AddToCart st p.1 p.2) s) =
        wrap64 (totalQuantity s + (adds.map (fun p => p.2.Quantity)).sum) := by
  induction adds with
  | nil =>
    intro s
    simp only [List.foldl_nil, List.map_nil, List.sum_nil, add_zero]
    rw [totalQuantity_eq]
    exact (wrap64_idem _).symm
  | cons p rest ih =>
    intro s
    rw [List.foldl_cons, ih, totalQuantity_AddToCart, wrap64_wrap_left]
    simp only [List.map_cons, List.sum_cons]
    exact congrArg wrap64 (by ring)

lemma WF_foldAdds (adds : List (String × CartItem)) :
    ∀ s : CartService, WF s →
      WF (adds.foldl (fun st p => AddToCart st p.1 p.2) s) := by
  induction adds with
  | nil => intro s h; exact h
  | cons p rest ih =>
    intro s h
    rw [List.foldl_cons]
    exact ih _ (WF_AddToCart s p.1 p.2 h)

lemma length_eq_card_keys (s : CartService) (h : WF s) :
    s.carts.length = (s.carts.map Prod.fst).toFinset.card := by
  rw [List.toFinset_card_of_nodup h.1, List.length_map]

/-! ## Helper lemmas: carts are never deleted -/

lemma isSome_lookup_setCart (l : List (String × Cart)) (u v : String)
    (c : Cart) (h : (lookup l u).isSome) :
    (lookup (setCart l v c) u).isSome := by
  by_cases huv : u = v
  · subst huv
    rw [lookup_setCart_self]
    simp
  · rw [lookup_setCart_ne l v u c huv]
    exact h

lemma isSome_lookup_AddToCart (s : CartService) (u v : String)
    (it : CartItem) (h : (lookup s.carts u).isSome) :
    (lookup (AddToCart s v it).carts u).isSome := by
  rw [AddToCart_carts]
  exact isSome_lookup_setCart s.carts u v _ h

lemma isSome_lookup_RemoveFromCart (s : CartService) (u v iid : String)
    (h : (lookup s.carts u).isSome) :
    (lookup (RemoveFromCart s v iid).1.carts u).isSome := by
  rcases RemoveFromCart_cases s v iid with heq | ⟨c, items, hl, hr, heq⟩
  · rw [heq]; exact h
  · rw [heq]
    exact isSome_lookup_setCart s.carts u v _ h

lemma isSome_lookup_applyOp (s : CartService) (u : String) (op : Op)
    (h : (lookup s.carts u).isSome) :
    (lookup (applyOp s op).carts u).isSome := by
  cases op with
  | add v it => exact isSome_lookup_AddToCart s u v it h
  | get _ => exact h
  | remove v iid => exact isSome_lookup_RemoveFromCart s u v iid h

lemma isSome_lookup_runOps (s : CartService) (u : String) (ops : List Op)
    (h : (lookup s.carts u).isSome) :
    (lookup (runOps s ops).carts u).isSome := by
  induction ops generalizing s with
  | nil => exact h
  | cons op rest ih =>
    exact ih (applyOp s op) (isSome_lookup_applyOp s u op h)

/-! ## Helper lemmas: successful removal -/

lemma removeItemFromItems_some_decomp (l : List CartItem) (iid : String)
    (l' : List CartItem) (h : removeItemFromItems l iid = some l') :
    ∃ pre e post, l = pre ++ e :: post ∧ e.ID = iid ∧
      (∀ x ∈ pre, x.ID ≠ iid) ∧ l' = pre ++ post := by
  induction l generalizing l' with
  | nil => simp [removeItemFromItems] at h
  | cons x xs ih =>
    by_cases hx : x.ID = iid
    · have h2 : xs = l' := by simpa [removeItemFromItems, hx] using h
      exact ⟨[], x, xs, by simp, hx, by simp, by simp [h2]⟩
    · simp only [removeItemFromItems, hx, if_false] at h
      cases hrec : removeItemFromItems xs iid with
      | none => simp [hrec] at h
      | some ys =>
        simp only [hrec, Option.some.injEq] at h
        obtain ⟨pre, e, post, heq, heid, hpre, hys⟩ := ih ys hrec
        refine ⟨x :: pre, e, post, by simp [heq], heid, ?_, by
          simp [← h, hys]⟩
        intro y hy
        rcases List.mem_cons.mp hy with h2 | h2
        · exact h2 ▸ hx
        · exact hpre y h2

lemma RemoveFromCart_ok (s s' : CartService) (u iid : String)
    (h : RemoveFromCart s u iid = (s', none)) :
    ∃ c items, lookup s.carts u = some c ∧
      removeItemFromItems c.Items iid = some items ∧
      s' = { carts := setCart s.carts u { c with Items := items } } := by
  cases hl : lookup s.carts u with
  | none =>
    rw [RemoveFromCart, hl] at h
    simp at h
  | some c =>
    cases hr : removeItemFromItems c.Items iid with
    | none =>
      rw [RemoveFromCart, hl] at h
      simp [hr] at h
    | some items =>
      rw [RemoveFromCart, hl] at h
      simp only [hr, Prod.mk.injEq] at h
      exact ⟨c, items, rfl, hr, h.1.symm⟩

/-! ## Helper lemmas: the slice heap -/

lemma lookupH_mem (l : List (String × HCart)) (u : String) (c : HCart)
    (h : lookupH l u = some c) : (u, c) ∈ l := by
  induction l with
  | nil => simp [lookupH] at h
  | cons p rest ih =>
    obtain ⟨k, c0⟩ := p
    by_cases hk : k = u
    · subst hk
      have h2 : c0 = c := by simpa [lookupH] using h
      subst h2
      exact List.mem_cons_self _ _
    · simp only [lookupH, hk, if_false] at h
      exact List.mem_cons_of_mem _ (ih h)

lemma readRef_append_lt (h : List (List CartItem)) (v : List CartItem)
    (r : Nat) (hr : r < h.length) :
    readRef (h ++ [v]) r = readRef h r := by
  induction h generalizing r with
  | nil => simp at hr
  | cons x rest ih =>
    cases r with
    | zero => rfl
    | succ m =>
      have hm : m < rest.length := by simpa using hr
      simpa [readRef] using ih m hm

lemma readRef_append_self (h : List (List CartItem)) (v : List CartItem) :
    readRef (h ++ [v]) h.length = v := by
  induction h with
  | nil => rfl
  | cons x rest ih => simp only [List.cons_append, List.length_cons,
      readRef, List.getD_cons_succ]; exact ih

lemma readRef_writeRef_ne (h : List (List CartItem)) (r1 r2 : Nat)
    (v : List CartItem) (hne : r1 ≠ r2) :
    readRef (writeRef h r2 v) r1 = readRef h r1 := by
  induction h generalizing r1 r2 with
  | nil => rfl
  | cons x rest ih =>
    cases r2 with
    | zero =>
      cases r1 with
      | zero => exact absurd rfl hne
      | succ m => simp [readRef, writeRef]
    | succ n =>
      cases r1 with
      | zero => simp [readRef, writeRef]
      | succ m =>
        have h2 : m ≠ n := fun hh => hne (by rw [hh])
        simpa [readRef, writeRef] using ih m n h2

lemma length_writeRef (h : List (List CartItem)) (r : Nat)
    (v : List CartItem) : (writeRef h r v).length = h.length := by
  simp [writeRef]

/-! ## Claim C1 -/

/-- C1 as stated fails on the code: Go's 64-bit `int` addition wraps, so
four adds of quantity `2 ^ 62` for one item identifier leave the single
entry with quantity `0`, not the mathematical sum `2 ^ 64`. -/
theorem addToCart_sum_overflow_counterexample :
    ¬ ∃ c' e, lookup (runAdds emptyService "u1"
        [⟨"a", "W", 1, 2 ^ 62⟩, ⟨"a", "W", 1, 2 ^ 62⟩,
         ⟨"a", "W", 1, 2 ^ 62⟩, ⟨"a", "W", 1, 2 ^ 62⟩]).carts "u1"
          = some c' ∧
      c'.Items.filter (fun x => x.ID == "a") = [e] ∧
      e.Quantity = ([(⟨"a", "W", 1, 2 ^ 62⟩ : CartItem),
        ⟨"a", "W", 1, 2 ^ 62⟩, ⟨"a", "W", 1, 2 ^ 62⟩,
        ⟨"a", "W", 1, 2 ^ 62⟩].map CartItem.Quantity).sum := by
  rintro ⟨c', e, hl, hf, hq⟩
  have h2 : lookup (runAdds emptyService "u1"
      [⟨"a", "W", 1, 2 ^ 62⟩, ⟨"a", "W", 1, 2 ^ 62⟩,
       ⟨"a", "W", 1, 2 ^ 62⟩, ⟨"a", "W", 1, 2 ^ 62⟩]).carts "u1"
      = some (⟨"u1", [⟨"a", "W", 1, 0⟩]⟩ : Cart) := by decide
  rw [h2] at hl
  obtain rfl := (Option.some.inj hl).symm
  have h3 : (⟨"u1", [⟨"a", "W", 1, 0⟩]⟩ : Cart).Items.filter
      (fun x => x.ID == "a") = [⟨"a", "W", 1, 0⟩] := by decide
  rw [h3] at hf
  obtain rfl := (List.cons.inj hf).1.symm
  exact absurd hq (by decide)

/-- C1 amended: for non-empty user and item identifiers, `AddToCart`
creates the user's cart when absent; when the cart already holds an entry
with the incoming item's identifier, that (first matching) entry's
quantity becomes the 64-bit wrapped sum of its old quantity and the added
quantity, with name and price kept as stored; otherwise the item is
appended.  Consequently a non-empty sequence of adds for one user, all
bearing the same item identifier with `int64` quantities and starting
from a cart with no entry for it, leaves exactly one entry for that
identifier, carrying the 64-bit wrap of the sum of the added
quantities. -/
theorem addToCart_merge_accumulate :
    (∀ (s : CartService) (u : String) (it : CartItem),
      u ≠ "" → it.ID ≠ "" → lookup s.carts u = none →
        lookup (AddToCart s u it).carts u =
          some { UserID := u, Items := [it] })
  ∧ (∀ (s : CartService) (u : String) (it : CartItem) (c : Cart),
      u ≠ "" → it.ID ≠ "" → lookup s.carts u = some c →
      (∀ x ∈ c.Items, x.ID ≠ it.ID) →
        lookup (AddToCart s u it).carts u =
          some { c with Items := c.Items ++ [it] })
  ∧ (∀ (s : CartService) (u : String) (it : CartItem) (c : Cart)
      (pre post : List CartItem) (e : CartItem),
      u ≠ "" → it.ID ≠ "" → lookup s.carts u = some c →
      c.Items = pre ++ e :: post → e.ID = it.ID →
      (∀ x ∈ pre, x.ID ≠ it.ID) →
        lookup (AddToCart s u it).carts u =
          some { c with Items := pre ++
            { ID := e.ID, Name := e.Name, Price := e.Price,
              Quantity := wrap64 (e.Quantity + it.Quantity) } :: post })
  ∧ (∀ (s : CartService) (u iid : String) (adds : List CartItem),
      u ≠ "" → iid ≠ "" → adds ≠ [] →
      (∀ it ∈ adds, it.ID = iid) →
      (∀ it ∈ adds, int64Range it.Quantity) →
      (∀ c, lookup s.carts u = some c → ∀ x ∈ c.Items, x.ID ≠ iid) →
      ∃ c' e, lookup (runAdds s u adds).carts u = some c' ∧
        c'.Items.filter (fun x => x.ID == iid) = [e] ∧
        e.Quantity = wrap64 ((adds.map CartItem.Quantity).sum)) := by
  refine ⟨?_, ?_, ?_, ?_⟩
  · intro s u it _ _ h
    exact lookup_AddToCart_absent s u it h
  · intro s u it c _ _ hc hno
    rw [lookup_AddToCart_present s u it c hc,
      addItemToItems_of_no_match c.Items it hno]
  · intro s u it c pre post e _ _ hc hitems he hpre
    rw [lookup_AddToCart_present s u it c hc, hitems,
      addItemToItems_of_first_match pre post e it he hpre]
  · intro s u iid adds _ _ hne hall hrange hstart
    cases adds with
    | nil => exact absurd rfl hne
    | cons a rest =>
      have hita : a.ID = iid := hall a (List.mem_cons_self _ _)
      have hrest : ∀ y ∈ rest, y.ID = iid :=
        fun y hy => hall y (List.mem_cons_of_mem _ hy)
      have ha : int64Range a.Quantity := hrange a (List.mem_cons_self _ _)
      have hstep : ∃ c1, lookup (AddToCart s u a).carts u = some c1 ∧
          c1.Items.filter (fun x => x.ID == iid) = [a] := by
        cases hlook : lookup s.carts u with
        | none =>
          refine ⟨{ UserID := u, Items := [a] },
            lookup_AddToCart_absent s u a hlook, ?_⟩
          have hab : (a.ID == iid) = true := beq_iff_eq.mpr hita
          simp [List.filter_cons, hab]
        | some c =>
          refine ⟨_, lookup_AddToCart_present s u a c hlook, ?_⟩
          exact filter_addItemToItems_base c.Items iid a hita
            (hstart c hlook)
      obtain ⟨c1, hc1, hf1⟩ := hstep
      obtain ⟨c', hc', hfil⟩ :=
        runAdds_same_id u iid rest hrest (AddToCart s u a) c1 a hc1 hf1
      rw [runAdds_cons]
      refine ⟨c', _, hc', hfil, ?_⟩
      show (rest.map CartItem.Quantity).foldl
          (fun x q => wrap64 (x + q)) a.Quantity = _
      calc (rest.map CartItem.Quantity).foldl
            (fun x q => wrap64 (x + q)) a.Quantity
          = (rest.map CartItem.Quantity).foldl
              (fun x q => wrap64 (x + q)) (wrap64 a.Quantity) := by
            rw [wrap64_of_int64Range a.Quantity ha]
        _ = wrap64 (a.Quantity + (rest.map CartItem.Quantity).sum) :=
            foldl_wrapAdd_int _ _
        _ = wrap64 (((a :: rest).map CartItem.Quantity).sum) := by
            simp only [List.map_cons, List.sum_cons]

/-- Concrete instance of the amended C1 theorem: its hypotheses are
satisfiable and its conclusions evaluate on the spec's concrete scenario
(2 + 3 wraps to 5 well inside the `int64` range). -/
theorem addToCart_merge_accumulate_witness :
    (lookup (AddToCart emptyService "u1"
        ⟨"a", "Widget A", 2, 2⟩).carts "u1" =
      some { UserID := "u1", Items := [⟨"a", "Widget A", 2, 2⟩] })
  ∧ (lookup (AddToCart
        { carts := [("u1", ⟨"u1", [⟨"a", "Widget A", 2, 2⟩]⟩)] }
        "u1" ⟨"b", "Widget B", 3, 1⟩).carts "u1" =
      some ⟨"u1", [⟨"a", "Widget A", 2, 2⟩, ⟨"b", "Widget B", 3, 1⟩]⟩)
  ∧ (lookup (AddToCart
        { carts := [("u1", ⟨"u1", [⟨"a", "Widget A", 2, 2⟩]⟩)] }
        "u1" ⟨"a", "ignored", 9, 3⟩).carts "u1" =
      some ⟨"u1", [⟨"a", "Widget A", 2, 5⟩]⟩)
  ∧ (∃ c' e, lookup (runAdds emptyService "u1"
        [⟨"a", "Widget A", 2, 2⟩, ⟨"a", "ignored", 9, 3⟩]).carts "u1"
          = some c' ∧
      c'.Items.filter (fun x => x.ID == "a") = [e] ∧
      e.Quantity = wrap64 (([(⟨"a", "Widget A", 2, 2⟩ : CartItem),
        ⟨"a", "ignored", 9, 3⟩].map CartItem.Quantity).sum)) := by
  refine ⟨?_, ?_, ?_, ?_⟩
  · exact addToCart_merge_accumulate.1 emptyService "u1"
      ⟨"a", "Widget A", 2, 2⟩ (by decide) (by decide) (by decide)
  · exact addToCart_merge_accumulate.2.1 _ "u1" ⟨"b", "Widget B", 3, 1⟩
      ⟨"u1", [⟨"a", "Widget A", 2, 2⟩]⟩
      (by decide) (by decide) (by decide) (by decide)
  · exact (addToCart_merge_accumulate.2.2.1 _ "u1" ⟨"a", "ignored", 9, 3⟩
      ⟨"u1", [⟨"a", "Widget A", 2, 2⟩]⟩
      [] [] ⟨"a", "Widget A", 2, 2⟩
      (by decide) (by decide) (by decide) (by decide) (by decide)
      (by decide)).trans (by decide)
  · exact addToCart_merge_accumulate.2.2.2 emptyService "u1" "a"
      [⟨"a", "Widget A", 2, 2⟩, ⟨"a", "ignored", 9, 3⟩]
      (by decide) (by decide) (by decide) (by decide) (by decide)
      (by intro c hc; simp [emptyService, lookup] at hc)

/-! ## Claim C2 -/

/-- C2 as stated fails on the code: the gauge accumulates `totalItems`
with wrapping `int64` addition, so after adds of `2 ^ 63 - 1` and `1`
(summing to `2 ^ 63`) it reports `-(2 ^ 63)`, not the mathematical
sum. -/
theorem observe_gauge_overflow_counterexample :
    (observeCartMetrics (runAddsMulti
        [("u1", ⟨"a", "A", 1, 2 ^ 63 - 1⟩), ("u1", ⟨"b", "B", 1, 1⟩)])).1
      ≠ ([("u1", (⟨"a", "A", 1, 2 ^ 63 - 1⟩ : CartItem)),
          ("u1", ⟨"b", "B", 1, 1⟩)].map (fun p => p.2.Quantity)).sum := by
  decide

/-- C2 amended: the gauge snapshot `observeCartMetrics` reports the
64-bit wrapped sum of the quantities of every item in every cart (the
`int64` accumulation the code performs) and the count of distinct user
identifiers with a cart entry (empty carts included); on the empty store
both values are zero, and after a sequence of adds from the empty store
it reports the wrapped sum of all added quantities and the number of
distinct users that added. -/
theorem observeCartMetrics_spec :
    (∀ s : CartService, WF s →
      observeCartMetrics s =
        (wrap64 ((s.carts.map
            (fun p => (p.2.Items.map CartItem.Quantity).sum)).sum),
          ((s.carts.map Prod.fst).toFinset.card : Int)))
  ∧ observeCartMetrics emptyService = (0, 0)
  ∧ (∀ adds : List (String × CartItem),
      observeCartMetrics (runAddsMulti adds) =
        (wrap64 ((adds.map (fun p => p.2.Quantity)).sum),
          ((adds.map Prod.fst).toFinset.card : Int))) := by
  refine ⟨?_, by rfl, ?_⟩
  · intro s hWF
    rw [observeCartMetrics, totalQuantity_eq, length_eq_card_keys s hWF]
  · intro adds
    have hWF : WF (runAddsMulti adds) :=
      WF_foldAdds adds emptyService WF_emptyService
    rw [observeCartMetrics, length_eq_card_keys _ hWF]
    have h1 : totalQuantity (runAddsMulti adds) =
        wrap64 ((adds.map (fun p => p.2.Quantity)).sum) := by
      rw [runAddsMulti, totalQuantity_foldAdds adds emptyService]
      exact congrArg wrap64 (by simp [totalQuantity, emptyService])
    have h2 : ((runAddsMulti adds).carts.map Prod.fst).toFinset =
        (adds.map Prod.fst).toFinset := by
      rw [runAddsMulti, toFinset_keys_foldAdds adds emptyService]
      simp [emptyService]
    rw [h1, h2]

/-- Concrete instance of the C2 theorem, on the spec's own scenario:
quantities 2+3+1 over users u1, u1, u2 give total-quantity 6 and
active-users 2. -/
theorem observeCartMetrics_spec_witness :
    WF (runAddsMulti [("u1", ⟨"a", "Widget A", 2, 2⟩),
        ("u1", ⟨"a", "Widget A", 2, 3⟩), ("u2", ⟨"b", "Widget B", 3, 1⟩)])
    ∧ observeCartMetrics (runAddsMulti [("u1", ⟨"a", "Widget A", 2, 2⟩),
        ("u1", ⟨"a", "Widget A", 2, 3⟩), ("u2", ⟨"b", "Widget B", 3, 1⟩)])
      = (6, 2) := by
  have hWF : WF (runAddsMulti [("u1", ⟨"a", "Widget A", 2, 2⟩),
      ("u1", ⟨"a", "Widget A", 2, 3⟩), ("u2", ⟨"b", "Widget B", 3, 1⟩)]) :=
    WF_foldAdds _ emptyService WF_emptyService
  refine ⟨hWF, ?_⟩
  rw [observeCartMetrics_spec.1 _ hWF]
  decide

/-! ## Claim C3 -/

/-- C3: at the slice level, `GetCartH` fails with `NotFound` for an
unknown user; for a known user it returns a cart with the stored user
identifier whose item slice is a fresh cell holding a copy of the stored
items, leaving the store's map untouched; and overwriting the returned
slice neither changes the live cart's slice nor what a second `GetCartH`
returns — the second call still yields the original data. -/
theorem getCart_independent_copy :
    (∀ (st : HState) (u : String), lookupH st.carts u = none →
      GetCartH st u = .error (CartError.notFound u))
  ∧ (∀ (st : HState) (u : String) (hc : HCart), WFH st →
      lookupH st.carts u = some hc →
      ∃ rc st1, GetCartH st u = .ok (rc, st1) ∧
        rc.UserID = hc.UserID ∧ st1.carts = st.carts ∧
        readRef st1.heap rc.itemsRef = readRef st.heap hc.itemsRef ∧
        rc.itemsRef ≠ hc.itemsRef)
  ∧ (∀ (st : HState) (u : String) (hc rc : HCart) (st1 : HState)
      (l : List CartItem), WFH st →
      lookupH st.carts u = some hc →
      GetCartH st u = Except.ok (rc, st1) →
      readRef (writeRef st1.heap rc.itemsRef l) hc.itemsRef =
          readRef st.heap hc.itemsRef
      ∧ ∃ rc2 st3,
          GetCartH { heap := writeRef st1.heap rc.itemsRef l,
                     carts := st1.carts } u = Except.ok (rc2, st3) ∧
          readRef st3.heap rc2.itemsRef = readRef st.heap hc.itemsRef) := by
  refine ⟨?_, ?_, ?_⟩
  · intro st u h
    simp [GetCartH, h]
  · intro st u hc hwf hlook
    have hlt : hc.itemsRef < st.heap.length :=
      hwf (u, hc) (lookupH_mem st.carts u hc hlook)
    refine ⟨⟨hc.UserID, st.heap.length⟩,
      ⟨st.heap ++ [readRef st.heap hc.itemsRef], st.carts⟩,
      by simp [GetCartH, hlook], rfl, rfl, ?_, ?_⟩
    · exact readRef_append_self st.heap _
    · exact ne_of_gt hlt
  · intro st u hc rc st1 l hwf hlook hok
    have hlt : hc.itemsRef < st.heap.length :=
      hwf (u, hc) (lookupH_mem st.carts u hc hlook)
    simp only [GetCartH, hlook, Except.ok.injEq, Prod.mk.injEq] at hok
    obtain ⟨hrc, hst1⟩ := hok
    subst hrc
    subst hst1
    have hne : hc.itemsRef ≠ st.heap.length := ne_of_lt hlt
    have ha : readRef (writeRef (st.heap ++ [readRef st.heap hc.itemsRef])
        st.heap.length l) hc.itemsRef = readRef st.heap hc.itemsRef := by
      rw [readRef_writeRef_ne _ _ _ _ hne,
        readRef_append_lt st.heap _ hc.itemsRef hlt]
    refine ⟨ha, ⟨hc.UserID,
      (writeRef (st.heap ++ [readRef st.heap hc.itemsRef])
        st.heap.length l).length⟩,
      ⟨writeRef (st.heap ++ [readRef st.heap hc.itemsRef]) st.heap.length l
          ++ [readRef (writeRef (st.heap ++ [readRef st.heap hc.itemsRef])
              st.heap.length l) hc.itemsRef],
        st.carts⟩, by simp [GetCartH, hlook], ?_⟩
    rw [readRef_append_self]
    exact ha

/-- Concrete instance of the C3 theorem: a store with one user whose cart
holds one item; the slice returned by `GetCartH` is overwritten with `[]`,
and the live slice and a second `GetCartH` still hold the original item. -/
theorem getCart_independent_copy_witness :
    readRef (writeRef (HState.mk [[⟨"a", "A", 1, 2⟩], [⟨"a", "A", 1, 2⟩]]
        [("u1", HCart.mk "u1" 0)]).heap (HCart.mk "u1" 1).itemsRef [])
        (HCart.mk "u1" 0).itemsRef
      = readRef (HState.mk [[⟨"a", "A", 1, 2⟩]]
          [("u1", HCart.mk "u1" 0)]).heap (HCart.mk "u1" 0).itemsRef
    ∧ ∃ rc2 st3,
      GetCartH { heap := writeRef (HState.mk [[⟨"a", "A", 1, 2⟩],
                   [⟨"a", "A", 1, 2⟩]] [("u1", HCart.mk "u1" 0)]).heap
                   (HCart.mk "u1" 1).itemsRef [],
                 carts := (HState.mk [[⟨"a", "A", 1, 2⟩],
                   [⟨"a", "A", 1, 2⟩]]
                   [("u1", HCart.mk "u1" 0)]).carts } "u1"
          = Except.ok (rc2, st3)
      ∧ readRef st3.heap rc2.itemsRef
          = readRef (HState.mk [[⟨"a", "A", 1, 2⟩]]
              [("u1", HCart.mk "u1" 0)]).heap (HCart.mk "u1" 0).itemsRef := by
  exact getCart_independent_copy.2.2
    (HState.mk [[⟨"a", "A", 1, 2⟩]] [("u1", HCart.mk "u1" 0)]) "u1"
    (HCart.mk "u1" 0) (HCart.mk "u1" 1)
    (HState.mk [[⟨"a", "A", 1, 2⟩], [⟨"a", "A", 1, 2⟩]]
      [("u1", HCart.mk "u1" 0)]) []
    (by intro p hp; rw [List.mem_singleton] at hp; subst hp; decide)
    (by rfl) (by rfl)

/-! ## Claim C4 -/

/-- C4: `RemoveFromCart` reports `NotFound` exactly when the user has no
cart, `ItemNotFound` exactly when the user's cart exists but holds no item
with the given identifier, and on either failure the store is returned
unchanged. -/
theorem removeFromCart_error_spec (s : CartService) (u iid : String) :
    ((RemoveFromCart s u iid).2 = some (CartError.notFound u) ↔
      lookup s.carts u = none)
  ∧ ((RemoveFromCart s u iid).2 = some (CartError.itemNotFound iid) ↔
      ∃ c, lookup s.carts u = some c ∧ ∀ x ∈ c.Items, x.ID ≠ iid)
  ∧ (∀ e, (RemoveFromCart s u iid).2 = some e →
      (RemoveFromCart s u iid).1 = s) := by
  cases hl : lookup s.carts u with
  | none =>
    refine ⟨by simp [RemoveFromCart, hl], ?_, ?_⟩
    · simp [RemoveFromCart, hl]
    · intro e _
      simp [RemoveFromCart, hl]
  | some c =>
    cases hr : removeItemFromItems c.Items iid with
    | none =>
      have hall := (removeItemFromItems_eq_none_iff c.Items iid).mp hr
      refine ⟨by simp [RemoveFromCart, hl, hr], ?_, ?_⟩
      · constructor
        · intro _
          exact ⟨c, rfl, hall⟩
        · intro _
          simp [RemoveFromCart, hl, hr]
      · intro e _
        simp [RemoveFromCart, hl, hr]
    | some items =>
      refine ⟨by simp [RemoveFromCart, hl, hr], ?_, ?_⟩
      · constructor
        · intro h
          exfalso
          simp [RemoveFromCart, hl, hr] at h
        · rintro ⟨c', hc', hall⟩
          exfalso
          obtain rfl : c = c' := Option.some.inj hc'
          have h2 := (removeItemFromItems_eq_none_iff c.Items iid).mpr hall
          rw [hr] at h2
          simp at h2
      · intro e he
        exfalso
        simp [RemoveFromCart, hl, hr] at he

/-- Concrete instance of the C4 theorem: removing a missing item id from
an existing cart leaves the store unchanged. -/
theorem removeFromCart_error_spec_witness :
    (RemoveFromCart { carts := [("u1", ⟨"u1", [⟨"a", "A", 1, 2⟩]⟩)] }
        "u1" "zz").1 =
      { carts := [("u1", ⟨"u1", [⟨"a", "A", 1, 2⟩]⟩)] } := by
  exact (removeFromCart_error_spec
      { carts := [("u1", ⟨"u1", [⟨"a", "A", 1, 2⟩]⟩)] } "u1" "zz").2.2
    (CartError.itemNotFound "zz") (by decide)

/-! ## Claim C5 -/

/-- C5: when the user's cart holds an item with the given identifier
(first occurrence `e` after the match-free prefix `pre`), removal
succeeds, the cart keeps exactly the other items `pre ++ post`, the cart
shrinks by exactly one, and no other user's cart changes. -/
theorem removeFromCart_removes_exactly (s : CartService) (u iid : String)
    (c : Cart) (pre post : List CartItem) (e : CartItem)
    (hc : lookup s.carts u = some c)
    (hitems : c.Items = pre ++ e :: post)
    (he : e.ID = iid) (hpre : ∀ x ∈ pre, x.ID ≠ iid) :
    ∃ s', RemoveFromCart s u iid = (s', none) ∧
      lookup s'.carts u = some { c with Items := pre ++ post } ∧
      (pre ++ post).length + 1 = c.Items.length ∧
      ∀ v, v ≠ u → lookup s'.carts v = lookup s.carts v := by
  have hr : removeItemFromItems c.Items iid = some (pre ++ post) := by
    rw [hitems]
    exact removeItemFromItems_of_first_match pre post e iid he hpre
  refine ⟨{ carts := setCart s.carts u { c with Items := pre ++ post } },
    ?_, ?_, ?_, ?_⟩
  · simp [RemoveFromCart, hc, hr]
  · exact lookup_setCart_self s.carts u _
  · rw [hitems]
    simp [List.length_append]
    omega
  · intro v hv
    exact lookup_setCart_ne s.carts u v _ hv

/-- Concrete instance of the C5 theorem: removing item `a` from a cart
holding `a` and `b` keeps exactly `b` and leaves user `u2`'s cart alone. -/
theorem removeFromCart_removes_exactly_witness :
    ∃ s', RemoveFromCart
        { carts := [("u1", ⟨"u1", [⟨"a", "A", 1, 2⟩, ⟨"b", "B", 2, 1⟩]⟩),
                    ("u2", ⟨"u2", [⟨"c", "C", 3, 4⟩]⟩)] } "u1" "a"
        = (s', none) ∧
      lookup s'.carts "u1" = some ⟨"u1", [⟨"b", "B", 2, 1⟩]⟩ ∧
      (([] ++ [(⟨"b", "B", 2, 1⟩ : CartItem)]).length + 1 =
        ([(⟨"a", "A", 1, 2⟩ : CartItem), ⟨"b", "B", 2, 1⟩]).length) ∧
      ∀ v, v ≠ "u1" → lookup s'.carts v =
        lookup [("u1", ⟨"u1", [⟨"a", "A", 1, 2⟩, ⟨"b", "B", 2, 1⟩]⟩),
                ("u2", ⟨"u2", [⟨"c", "C", 3, 4⟩]⟩)] v := by
  exact removeFromCart_removes_exactly
    { carts := [("u1", ⟨"u1", [⟨"a", "A", 1, 2⟩, ⟨"b", "B", 2, 1⟩]⟩),
                ("u2", ⟨"u2", [⟨"c", "C", 3, 4⟩]⟩)] } "u1" "a"
    ⟨"u1", [⟨"a", "A", 1, 2⟩, ⟨"b", "B", 2, 1⟩]⟩
    [] [⟨"b", "B", 2, 1⟩] ⟨"a", "A", 1, 2⟩
    (by decide) (by decide) (by decide) (by decide)

/-! ## Claim C10 -/

/-- C10: when the user's cart holds at least one item with the given
identifier, removal deletes exactly the first matching element: the cart's
new item list is the old one with that one element dropped, the relative
order of all remaining items preserved. -/
theorem removeFromCart_first_match_order (s : CartService) (u iid : String)
    (c : Cart) (hc : lookup s.carts u = some c)
    (hmatch : ∃ x ∈ c.Items, x.ID = iid) :
    ∃ pre e post s', c.Items = pre ++ e :: post ∧ e.ID = iid ∧
      (∀ x ∈ pre, x.ID ≠ iid) ∧
      removeItemFromItems c.Items iid = some (pre ++ post) ∧
      RemoveFromCart s u iid = (s', none) ∧
      lookup s'.carts u = some { c with Items := pre ++ post } := by
  obtain ⟨pre, e, post, heq, heid, hpre⟩ :=
    exists_first_match c.Items iid hmatch
  have hr : removeItemFromItems c.Items iid = some (pre ++ post) := by
    rw [heq]
    exact removeItemFromItems_of_first_match pre post e iid heid hpre
  refine ⟨pre, e, post,
    { carts := setCart s.carts u { c with Items := pre ++ post } },
    heq, heid, hpre, hr, ?_, ?_⟩
  · simp [RemoveFromCart, hc, hr]
  · exact lookup_setCart_self s.carts u _

/-- Concrete instance of the C10 theorem: with duplicate-free cart
`[b, a, c]`, removing `a` yields `[b, c]` in order. -/
theorem removeFromCart_first_match_order_witness :
    ∃ pre e post s',
      (⟨"u1", [⟨"b", "B", 2, 1⟩, ⟨"a", "A", 1, 2⟩, ⟨"c", "C", 3, 4⟩]⟩ :
          Cart).Items = pre ++ e :: post ∧
      e.ID = "a" ∧ (∀ x ∈ pre, x.ID ≠ "a") ∧
      removeItemFromItems (⟨"u1", [⟨"b", "B", 2, 1⟩, ⟨"a", "A", 1, 2⟩,
          ⟨"c", "C", 3, 4⟩]⟩ : Cart).Items "a" = some (pre ++ post) ∧
      RemoveFromCart { carts := [("u1", ⟨"u1", [⟨"b", "B", 2, 1⟩,
          ⟨"a", "A", 1, 2⟩, ⟨"c", "C", 3, 4⟩]⟩)] } "u1" "a" = (s', none) ∧
      lookup s'.carts "u1" = some { (⟨"u1", [⟨"b", "B", 2, 1⟩,
          ⟨"a", "A", 1, 2⟩, ⟨"c", "C", 3, 4⟩]⟩ : Cart) with
            Items := pre ++ post } := by
  exact removeFromCart_first_match_order
    { carts := [("u1", ⟨"u1", [⟨"b", "B", 2, 1⟩, ⟨"a", "A", 1, 2⟩,
        ⟨"c", "C", 3, 4⟩]⟩)] } "u1" "a"
    ⟨"u1", [⟨"b", "B", 2, 1⟩, ⟨"a", "A", 1, 2⟩, ⟨"c", "C", 3, 4⟩]⟩
    (by decide) ⟨⟨"a", "A", 1, 2⟩, by decide, by decide⟩

/-! ## Claim C6 -/

/-- C6: for one completed request, `withMetrics` records exactly one
request-counter increment and exactly one latency observation, both
labelled with the method, path and status code; exactly when the status is
at least 400 it additionally records exactly one error-counter increment
labelled with the error classification, the same path and the same status
— `client_error` on 4xx and `server_error` on 5xx. -/
theorem withMetrics_records (m p : String) (status : Int) (secs : Rat) :
    ((withMetricsEvents m p status secs).filter MetricEvent.isRequestCount
      = [MetricEvent.requestCount m p status])
  ∧ ((withMetricsEvents m p status secs).filter MetricEvent.isLatency
      = [MetricEvent.latency m p status secs])
  ∧ (status ≥ 400 →
      (withMetricsEvents m p status secs).filter MetricEvent.isErrorCount
        = [MetricEvent.errorCount
            (if status ≥ 500 then "server_error" else "client_error")
            p status])
  ∧ (status < 400 →
      (withMetricsEvents m p status secs).filter
        MetricEvent.isErrorCount = [])
  ∧ (400 ≤ status → status < 500 →
      MetricEvent.errorCount "client_error" p status
        ∈ withMetricsEvents m p status secs)
  ∧ (500 ≤ status →
      MetricEvent.errorCount "server_error" p status
        ∈ withMetricsEvents m p status secs) := by
  refine ⟨?_, ?_, ?_, ?_, ?_, ?_⟩
  · by_cases h4 : status ≥ 400 <;>
      simp [withMetricsEvents, h4, List.filter_cons,
        MetricEvent.isRequestCount, MetricEvent.isLatency,
        MetricEvent.isErrorCount]
  · by_cases h4 : status ≥ 400 <;>
      simp [withMetricsEvents, h4, List.filter_cons,
        MetricEvent.isRequestCount, MetricEvent.isLatency,
        MetricEvent.isErrorCount]
  · intro h4
    by_cases h5 : status ≥ 500 <;>
      simp [withMetricsEvents, h4, h5, List.filter_cons,
        MetricEvent.isRequestCount, MetricEvent.isLatency,
        MetricEvent.isErrorCount]
  · intro hlt
    have h4 : ¬ status ≥ 400 := by omega
    simp [withMetricsEvents, h4, List.filter_cons,
      MetricEvent.isRequestCount, MetricEvent.isLatency,
      MetricEvent.isErrorCount]
  · intro hge hlt
    have h4 : status ≥ 400 := hge
    have h5 : ¬ status ≥ 500 := by omega
    simp [withMetricsEvents, h4, h5]
  · intro h5
    have h4 : status ≥ 400 := by omega
    simp [withMetricsEvents, h4, h5]

/-- Concrete instance of the C6 theorem: a 404 yields one `client_error`
increment, a 503 one `server_error` increment, a 200 none. -/
theorem withMetrics_records_witness :
    ((withMetricsEvents "GET" "/cart/get" 404 (1/100)).filter
        MetricEvent.isErrorCount
      = [MetricEvent.errorCount
          (if (404 : Int) ≥ 500 then "server_error" else "client_error")
          "/cart/get" 404])
  ∧ (MetricEvent.errorCount "client_error" "/cart/get" 404
      ∈ withMetricsEvents "GET" "/cart/get" 404 (1/100))
  ∧ (MetricEvent.errorCount "server_error" "/simulate-error" 503
      ∈ withMetricsEvents "GET" "/simulate-error" 503 (1/100))
  ∧ ((withMetricsEvents "GET" "/health" 200 (1/100)).filter
      MetricEvent.isErrorCount = []) := by
  refine ⟨?_, ?_, ?_, ?_⟩
  · exact (withMetrics_records "GET" "/cart/get" 404 (1/100)).2.2.1
      (by decide)
  · exact (withMetrics_records "GET" "/cart/get" 404 (1/100)).2.2.2.2.1
      (by decide) (by decide)
  · exact (withMetrics_records "GET" "/simulate-error" 503
      (1/100)).2.2.2.2.2 (by decide)
  · exact (withMetrics_records "GET" "/health" 200 (1/100)).2.2.2.1
      (by decide)

/-! ## Claim C7 -/

/-- C7: every state reachable from the empty store by `AddToCart`,
`GetCart` and `RemoveFromCart` operations satisfies the store invariant:
at most one map entry per user identifier and, within each cart, at most
one entry per item identifier. -/
theorem reachable_state_invariants (ops : List Op) :
    WF (runOps emptyService ops) :=
  WF_runOps emptyService ops WF_emptyService

/-! ## Claim C8 -/

/-- C8's aggregate part as stated fails on the code: the gauge is a
wrapped `int64` sum, so at the reachable store holding quantities
`2 ^ 63 - 1` and `1` (gauge reads `-(2 ^ 63)`), removing the quantity-1
item leaves gauge `2 ^ 63 - 1`, not `-(2 ^ 63) - 1`. -/
theorem remove_total_overflow_counterexample :
    RemoveFromCart (runAddsMulti [("u1", ⟨"a", "A", 1, 2 ^ 63 - 1⟩),
        ("u1", ⟨"b", "B", 1, 1⟩)]) "u1" "b"
      = ({ carts := [("u1", ⟨"u1", [⟨"a", "A", 1, 2 ^ 63 - 1⟩]⟩)] },
          none) ∧
    totalQuantity { carts := [("u1", ⟨"u1", [⟨"a", "A", 1, 2 ^ 63 - 1⟩]⟩)] }
      ≠ totalQuantity (runAddsMulti [("u1", ⟨"a", "A", 1, 2 ^ 63 - 1⟩),
          ("u1", ⟨"b", "B", 1, 1⟩)]) - 1 := by
  decide

/-- C8 amended: a cart entry, once present, survives every further
operation; and a successful removal keeps the active-users gauge value
unchanged while the total-quantity gauge value becomes the 64-bit wrap of
the previous value minus the removed entry's quantity. -/
theorem carts_never_deleted :
    (∀ (s : CartService) (u : String) (ops : List Op),
      (lookup s.carts u).isSome →
      (lookup (runOps s ops).carts u).isSome)
  ∧ (∀ (s s' : CartService) (u iid : String),
      RemoveFromCart s u iid = (s', none) →
      (observeCartMetrics s').2 = (observeCartMetrics s).2 ∧
      ∃ c e, lookup s.carts u = some c ∧ e ∈ c.Items ∧ e.ID = iid ∧
        totalQuantity s' = wrap64 (totalQuantity s - e.Quantity)) := by
  refine ⟨fun s u ops => isSome_lookup_runOps s u ops, ?_⟩
  intro s s' u iid h
  obtain ⟨c, items, hl, hr, hs'⟩ := RemoveFromCart_ok s s' u iid h
  obtain ⟨pre, e, post, heq, heid, hpre, hitems⟩ :=
    removeItemFromItems_some_decomp c.Items iid items hr
  constructor
  · have hlen : s'.carts.length = s.carts.length := by
      rw [hs']
      show (setCart s.carts u { c with Items := items }).length = _
      rw [length_setCart]
      simp [hl]
    simp [observeCartMetrics, hlen]
  · refine ⟨c, e, hl, ?_, heid, ?_⟩
    · rw [heq]
      exact List.mem_append_right _ (List.mem_cons_self _ _)
    · have hsum : (items.map CartItem.Quantity).sum
          = (c.Items.map CartItem.Quantity).sum - e.Quantity := by
        rw [hitems, heq]
        simp only [List.map_append, List.sum_append, List.map_cons,
          List.sum_cons]
        ring
      have hM : ((setCart s.carts u { c with Items := items }).map
          (fun p => (p.2.Items.map CartItem.Quantity).sum)).sum
          = (s.carts.map
              (fun p => (p.2.Items.map CartItem.Quantity).sum)).sum
            - e.Quantity := by
        rw [sum_map_setCart (fun c' => (c'.Items.map CartItem.Quantity).sum)
          s.carts u _ c hl]
        show _ - (c.Items.map CartItem.Quantity).sum
            + (items.map CartItem.Quantity).sum = _
        rw [hsum]
        ring
      rw [hs', totalQuantity_eq, totalQuantity_eq, wrap64_wrap_sub]
      show wrap64 (((setCart s.carts u { c with Items := items }).map
          (fun p => (p.2.Items.map CartItem.Quantity).sum)).sum) = _
      rw [hM]

/-- Concrete instance of the amended C8 theorem: removing the only item
of `u1`'s cart keeps the cart (and the active-users count) while
total-quantity becomes the wrap of the previous value minus the removed
quantity. -/
theorem carts_never_deleted_witness :
    ((lookup (runOps { carts := [("u1", ⟨"u1", [⟨"a", "A", 1, 2⟩]⟩)] }
        [Op.remove "u1" "a", Op.get "u1"]).carts "u1").isSome)
  ∧ ((observeCartMetrics { carts := [("u1", ⟨"u1", ([] : List CartItem)⟩)] }).2
        = (observeCartMetrics
            { carts := [("u1", ⟨"u1", [⟨"a", "A", 1, 2⟩]⟩)] }).2 ∧
      ∃ c e, lookup [("u1", (⟨"u1", [⟨"a", "A", 1, 2⟩]⟩ : Cart))] "u1"
          = some c ∧ e ∈ c.Items ∧ e.ID = "a" ∧
        totalQuantity { carts := [("u1", ⟨"u1", ([] : List CartItem)⟩)] }
          = wrap64 (totalQuantity
              { carts := [("u1", ⟨"u1", [⟨"a", "A", 1, 2⟩]⟩)] }
            - e.Quantity)) := by
  constructor
  · exact carts_never_deleted.1
      { carts := [("u1", ⟨"u1", [⟨"a", "A", 1, 2⟩]⟩)] } "u1"
      [Op.remove "u1" "a", Op.get "u1"] (by decide)
  · exact carts_never_deleted.2
      { carts := [("u1", ⟨"u1", [⟨"a", "A", 1, 2⟩]⟩)] }
      { carts := [("u1", ⟨"u1", ([] : List CartItem)⟩)] } "u1" "a"
      (by decide)

/-! ## Claim C9 -/

/-- C9 as stated fails on the code: in `AddToCart`'s lock trace the
store-wide exclusive lock is not released before the per-cart lock is
taken (the deferred `cs.mutex.Unlock()` runs only at return, after all
item-level work). -/
theorem addToCart_lock_not_released_early :
    ¬ beforeIn (addToCartLockTrace "u1") LockEv.storeUnlock
        (LockEv.cartLock "u1") := by
  simp [beforeIn, addToCartLockTrace]

/-- C9 amended: `AddToCart` acquires the store-wide exclusive lock first
and releases it only at the very end — the per-cart lock and all
item-level work sit inside the store-wide critical section — while
`RemoveFromCart` does release the store-level (read) lock before taking
the per-cart lock. -/
theorem lock_discipline_amended (u : String) :
    ((addToCartLockTrace u).head? = some LockEv.storeLock ∧
      (addToCartLockTrace u).getLast? = some LockEv.storeUnlock ∧
      ¬ beforeIn (addToCartLockTrace u) LockEv.storeUnlock
          (LockEv.cartLock u))
  ∧ beforeIn (removeFromCartLockTrace u) LockEv.storeRUnlock
      (LockEv.cartLock u) := by
  refine ⟨⟨rfl, rfl, ?_⟩, ?_⟩
  · simp [beforeIn, addToCartLockTrace]
  · simp [beforeIn, removeFromCartLockTrace]
